import Mathlib

/-!
Shallow embedding of the BLE audio-capture server (src/record.py and
src/server.py) and proofs about its observable behaviour.

The embedding models:
- the `AudioRecorder` start/stop flag machine and the body of
  `_record_continuously` (one time-box of the per-segment loop),
- the module-level `file_queue` (FIFO of finished filenames) together with
  the filesystem, modelled as an association list from filenames to byte
  contents (bytes are `Nat`),
- the `GATTCharacteristic` methods `ReadValue`, `StartNotify`, `StopNotify`
  and `WriteValue`, with the subscriber set `_clients` as a `Finset String`.

External effects (the pyaudio device, dbus, the wall clock, logging) are
abstracted: device reads arrive as an explicit input list of outcomes, the
sender of a dbus call is an explicit `String` argument, and log output is
dropped except where a claim observes it (the "already in progress" warning
of `start_recording`, returned as a `Bool`).
-/

namespace BLE

/-! ## Audio settings (record.py lines 22-27, server.py lines 25-30) -/

def CHUNK : Nat := 8192

def RATE : Nat := 44100

def RECORD_SECONDS : Nat := 30

/-- Loop bound of one time-box: Python computes
`int(RATE / CHUNK * RECORD_SECONDS)`.  Since `CHUNK = 2 ^ 13`,
`RATE / CHUNK` is exact in binary floating point and the result equals the
floor of the rational `RATE * RECORD_SECONDS / CHUNK`, i.e. Nat division. -/
def blocksPerBox : Nat := RATE * RECORD_SECONDS / CHUNK

/-! ## AudioRecorder (server.py lines 35-108)

Only the observable state is kept: the `is_recording` flag.  The pyaudio
handle and the worker thread are external resources; `start_recording`
spawning the thread is represented by the time-box semantics below being
driven while the flag is up. -/

structure Recorder where
  is_recording : Bool
  deriving DecidableEq, Repr

/-- server.py lines 41-55.  Returns the new state and whether the
"Recording already in progress" warning fired (the else branch). -/
def start_recording (r : Recorder) : Recorder × Bool :=
  if !r.is_recording then ({ is_recording := true }, false)
  else (r, true)

/-- server.py lines 102-108.  The guard means a stop while not recording
changes nothing; a stop while recording clears the flag (the join and the
pyaudio terminate are external effects). -/
def stop_recording (r : Recorder) : Recorder :=
  if r.is_recording then { is_recording := false } else r

/-! ## Filesystem and hand-off queue

The filesystem visible to the program is a finite map from filenames to
byte contents, as an association list.  `file_queue` (server.py line 33) is
a FIFO list whose head is the oldest entry. -/

abbrev Storage := List (String × List Nat)

/-- Contents of a file, `none` when the file does not exist
(`FileNotFoundError` on open). -/
def lookupFile : Storage → String → Option (List Nat)
  | [], _ => none
  | p :: st, name => if p.1 = name then some p.2 else lookupFile st name

/-- Effect of `os.remove name`. -/
def removeFile : Storage → String → Storage
  | [], _ => []
  | p :: st, name =>
    if p.1 = name then removeFile st name else p :: removeFile st name

/-- Effect of writing a whole file (wave.open .. writeframes .. close). -/
def writeFile (st : Storage) (name : String) (bytes : List Nat) : Storage :=
  (name, bytes) :: removeFile st name

/-! ## Whole-server state

One record for the module-level globals of server.py plus the fields of
`GATTCharacteristic` and the recorder. -/

structure SystemState where
  file_queue : List String
  storage : Storage
  clients : Finset String
  recorder : Recorder
  value : List Nat
  deriving DecidableEq

/-- The state right after module import and `GATTCharacteristic.__init__`. -/
def sysInit : SystemState :=
  { file_queue := [], storage := [], clients := ∅,
    recorder := { is_recording := false }, value := [] }

/-! ## GATTCharacteristic.ReadValue (server.py lines 175-201)

The method pops the oldest filename, opens it, reads the FIRST 512 bytes,
stores them in `_value`, deletes the whole file, and returns those bytes.
If the queue is empty, or the popped file is missing (`FileNotFoundError`),
it returns the empty list.  A failed `os.remove` is caught and logged
(non-fatal); the model lets the remove succeed, which is the only
behaviour the filesystem model can exhibit. -/

def ReadValue (s : SystemState) : List Nat × SystemState :=
  match s.file_queue with
  | [] => ([], s)
  | filename :: rest =>
    match lookupFile s.storage filename with
    | none => ([], { s with file_queue := rest })
    | some bytes =>
      let data := bytes.take 512
      (data, { s with
                file_queue := rest,
                storage := removeFile s.storage filename,
                value := data })

/-! ## StartNotify / StopNotify (server.py lines 203-228) -/

/-- server.py lines 203-217.  Adds the sender to `_clients`; when the set
size is 1 afterwards, calls `recorder.start_recording()`.  The returned
`Bool` records whether `start_recording` was invoked by this call. -/
def StartNotify (sender : String) (s : SystemState) : SystemState × Bool :=
  let cs := insert sender s.clients
  if cs.card = 1 then
    ({ s with clients := cs, recorder := (start_recording s.recorder).1 }, true)
  else
    ({ s with clients := cs }, false)

/-- server.py lines 219-228.  Discards the sender; when the set becomes
empty, calls `recorder.stop_recording()`. -/
def StopNotify (sender : String) (s : SystemState) : SystemState :=
  let cs := s.clients.erase sender
  if cs = ∅ then
    { s with clients := cs, recorder := stop_recording s.recorder }
  else
    { s with clients := cs }

/-! ## GATTCharacteristic.WriteValue (server.py lines 230-233)

The method runs `bytes(value).decode()` — strict UTF-8 — inside a log
call and returns `None`, touching no state.  On invalid UTF-8 the decode
raises `UnicodeDecodeError`, which propagates out of the method.
`utf8Valid` is the byte-level acceptance condition of a strict UTF-8
decoder (RFC 3629: no bytes above 0xF4, no overlong forms, no surrogate
range, no truncated sequences), which is what CPython enforces. -/

def isCont (b : Nat) : Bool := decide (0x80 ≤ b) && decide (b < 0xC0)

def utf8Valid : List Nat → Bool
  | [] => true
  | b :: rest =>
    if b < 0x80 then utf8Valid rest
    else if b < 0xC2 then false
    else if b < 0xE0 then
      match rest with
      | b1 :: rest2 => isCont b1 && utf8Valid rest2
      | [] => false
    else if b < 0xF0 then
      match rest with
      | b1 :: b2 :: rest3 =>
        (if b = 0xE0 then decide (0xA0 ≤ b1) && decide (b1 < 0xC0)
         else if b = 0xED then decide (0x80 ≤ b1) && decide (b1 < 0xA0)
         else isCont b1) && isCont b2 && utf8Valid rest3
      | _ => false
    else if b ≤ 0xF4 then
      match rest with
      | b1 :: b2 :: b3 :: rest4 =>
        (if b = 0xF0 then decide (0x90 ≤ b1) && decide (b1 < 0xC0)
         else if b = 0xF4 then decide (0x80 ≤ b1) && decide (b1 < 0x90)
         else isCont b1) && isCont b2 && isCont b3 && utf8Valid rest4
      | _ => false
    else false

/-- server.py lines 230-233: `some s` means the call completed (returning
`None`, every component untouched); `none` means the strict decode raised
`UnicodeDecodeError`. -/
def WriteValue (value : List Nat) (s : SystemState) : Option SystemState :=
  if utf8Valid value then some s else none

/-! ## Subscriber event traces (for the lifecycle invariant) -/

inductive SubEvent where
  | sub (session : String)
  | unsub (session : String)
  deriving DecidableEq, Repr

def ctrlStep (s : SystemState) : SubEvent → SystemState
  | SubEvent.sub x => (StartNotify x s).1
  | SubEvent.unsub x => StopNotify x s

def runCtrl (es : List SubEvent) : SystemState :=
  es.foldl ctrlStep sysInit

/-! ## One time-box of `_record_continuously` (record.py lines 73-114)

The body of the while loop: open a stream, run the for loop up to
`blocksPerBox` times collecting blocks into `frames`, then — if `frames`
is non-empty — write the concatenation to the segment file and push the
filename onto `file_queue`.

The environment of one loop iteration is a `BoxStep`: either the
`is_recording` flag was observed `False` at the top of the iteration
(the stop break), or a `stream.read` happened and either returned a block
or raised (the error break). -/

inductive ReadOutcome where
  | ok (block : List Nat)
  | err
  deriving DecidableEq, Repr

inductive BoxStep where
  | stopped
  | read (r : ReadOutcome)
  deriving DecidableEq, Repr

/-- The for loop of record.py lines 88-97: iterate at most `fuel` times,
stopping early on an observed stop flag or a read error; collect the
blocks read so far.  An exhausted environment list also ends the loop
(the theorems below always supply enough environment). -/
def collectFrames : Nat → List BoxStep → List (List Nat)
  | 0, _ => []
  | _ + 1, [] => []
  | _ + 1, BoxStep.stopped :: _ => []
  | _ + 1, BoxStep.read ReadOutcome.err :: _ => []
  | n + 1, BoxStep.read (ReadOutcome.ok d) :: rest => d :: collectFrames n rest

/-- record.py lines 102-112: after the loop, `if frames:` write the file
and enqueue its name, else fall through with nothing written or queued. -/
def timeBox (name : String) (env : List BoxStep) (st : Storage)
    (q : List String) : Storage × List String :=
  let frames := collectFrames blocksPerBox env
  if frames.isEmpty then (st, q)
  else (writeFile st name frames.flatten, q ++ [name])

/-- The while loop of `_record_continuously`, run over an explicit list of
time-boxes (one entry per iteration in which the flag was observed up,
carrying that box's fresh filename and its read environment). -/
def runBoxes (boxes : List (String × List BoxStep)) (st : Storage)
    (q : List String) : Storage × List String :=
  match boxes with
  | [] => (st, q)
  | (name, env) :: rest =>
    let r := timeBox name env st q
    runBoxes rest r.1 r.2

/-! ## Combined producer/consumer traces (for the FIFO delivery claim)

A system trace interleaves completed recorder time-boxes (each carrying
its fresh filename and read environment) with consumer polls.  Ghost
fields record, in order, the filenames ever enqueued, the filenames
delivered by polls, and the full byte content each segment had when it
was closed; the real state evolves through `timeBox` and `ReadValue`
exactly as in the source. -/

inductive SysEvent where
  | box (name : String) (env : List BoxStep)
  | poll
  deriving DecidableEq, Repr

structure TraceState where
  sys : SystemState
  enq : List String
  del : List String
  closed : Storage
  deriving DecidableEq

def traceInit : TraceState :=
  { sys := sysInit, enq := [], del := [], closed := [] }

/-- One trace step.  The `sys` component is driven by the embedded source
functions; the ghost fields mirror the branch taken. -/
def traceStep (t : TraceState) : SysEvent → TraceState
  | SysEvent.box name env =>
    let frames := collectFrames blocksPerBox env
    let r := timeBox name env t.sys.storage t.sys.file_queue
    { t with
        sys := { t.sys with storage := r.1, file_queue := r.2 },
        enq := if frames.isEmpty then t.enq else t.enq ++ [name],
        closed := if frames.isEmpty then t.closed
                  else writeFile t.closed name frames.flatten }
  | SysEvent.poll =>
    let r := ReadValue t.sys
    { t with
        sys := r.2,
        del := match t.sys.file_queue with
               | [] => t.del
               | f :: _ =>
                 match lookupFile t.sys.storage f with
                 | none => t.del
                 | some _ => t.del ++ [f] }

def runTrace : List SysEvent → TraceState → TraceState
  | [], t => t
  | e :: es, t => runTrace es (traceStep t e)

/-- Names of the box events of a trace, in order. -/
def boxNames : List SysEvent → List String
  | [] => []
  | SysEvent.box name _ :: es => name :: boxNames es
  | SysEvent.poll :: es => boxNames es

/-- Invariant tying the ghost history to the live state: the delivered
names followed by the still-queued names are exactly the enqueued names
in order; the enqueued names are distinct; every still-queued segment's
storage holds exactly the bytes it was closed with; every enqueued
segment was closed. -/
def TraceInv (t : TraceState) : Prop :=
  t.del ++ t.sys.file_queue = t.enq ∧
  t.enq.Nodup ∧
  (∀ n ∈ t.sys.file_queue,
    lookupFile t.sys.storage n = lookupFile t.closed n) ∧
  (∀ n ∈ t.enq, lookupFile t.closed n ≠ none)

/-- A queued 1300-byte segment (bytes 0..1299 modelled as the values of
`List.range 1300`), as left behind by a completed time-box. -/
def sBigSegment : SystemState :=
  { file_queue := ["f"], storage := [("f", List.range 1300)], clients := ∅,
    recorder := { is_recording := true }, value := [] }

/-- The state after the first poll on `sBigSegment`: queue drained,
storage deleted, the first 512 bytes cached in `_value`. -/
def sAfterFirstPoll : SystemState :=
  { file_queue := [], storage := [], clients := ∅,
    recorder := { is_recording := true }, value := List.range 512 }

/-- A queued filename whose file is missing from storage. -/
def sMissingFile : SystemState :=
  { file_queue := ["g"], storage := [], clients := ∅,
    recorder := { is_recording := false }, value := [] }

/-- Concrete state with two subscribers and the recorder running, reached
for instance after two distinct clients subscribe. -/
def sTwoClients : SystemState :=
  { file_queue := [], storage := [], clients := {"a", "b"},
    recorder := { is_recording := true }, value := [] }

/-- Witness trace for C3: two closed one-block segments then two polls. -/
def esWitness : List SysEvent :=
  [SysEvent.box "a" [BoxStep.read (ReadOutcome.ok [7]), BoxStep.stopped],
   SysEvent.box "b" [BoxStep.read (ReadOutcome.ok [9]), BoxStep.stopped],
   SysEvent.poll,
   SysEvent.poll]

/-! ## Helper lemmas about the time-box loop -/

theorem blocksPerBox_eq : blocksPerBox = 161 := by decide


/-- A run of successful reads is collected block by block. -/
theorem collectFrames_ok_append (blocks : List (List Nat)) :
    ∀ (fuel : Nat) (rest : List BoxStep), blocks.length ≤ fuel →
    collectFrames fuel
        (blocks.map (fun d => BoxStep.read (ReadOutcome.ok d)) ++ rest) =
      blocks ++ collectFrames (fuel - blocks.length) rest := by
  induction blocks with
  | nil => intro fuel rest _; simp
  | cons d bs ih =>
    intro fuel rest h
    match fuel with
    | 0 => simp at h
    | n + 1 =>
      simp only [List.map_cons, List.cons_append, collectFrames, List.append_eq]
      rw [ih n rest (by simpa using h)]
      simp [Nat.succ_sub_succ]

theorem collectFrames_stopped (fuel : Nat) (rest : List BoxStep) :
    collectFrames fuel (BoxStep.stopped :: rest) = [] := by
  cases fuel <;> rfl

theorem collectFrames_err (fuel : Nat) (rest : List BoxStep) :
    collectFrames fuel (BoxStep.read ReadOutcome.err :: rest) = [] := by
  cases fuel <;> rfl

/-- A full box of `blocksPerBox` successful reads collects exactly those
blocks. -/
theorem collectFrames_full (blocks : List (List Nat))
    (h : blocks.length = blocksPerBox) :
    collectFrames blocksPerBox
        (blocks.map (fun d => BoxStep.read (ReadOutcome.ok d))) = blocks := by
  have := collectFrames_ok_append blocks blocksPerBox [] (le_of_eq h)
  simpa [h, collectFrames] using this

/-- A box interrupted after `blocks` reads (by a stop flag observed before
the box filled) collects exactly those blocks. -/
theorem collectFrames_stop_cut (blocks : List (List Nat))
    (rest : List BoxStep) (h : blocks.length < blocksPerBox) :
    collectFrames blocksPerBox
        (blocks.map (fun d => BoxStep.read (ReadOutcome.ok d))
          ++ BoxStep.stopped :: rest) = blocks := by
  rw [collectFrames_ok_append blocks blocksPerBox (BoxStep.stopped :: rest)
      (Nat.le_of_lt h)]
  rw [collectFrames_stopped]
  simp

/-- A box interrupted after `blocks` reads by a device read error collects
exactly those blocks. -/
theorem collectFrames_err_cut (blocks : List (List Nat))
    (rest : List BoxStep) (h : blocks.length < blocksPerBox) :
    collectFrames blocksPerBox
        (blocks.map (fun d => BoxStep.read (ReadOutcome.ok d))
          ++ BoxStep.read ReadOutcome.err :: rest) = blocks := by
  rw [collectFrames_ok_append blocks blocksPerBox
      (BoxStep.read ReadOutcome.err :: rest) (Nat.le_of_lt h)]
  rw [collectFrames_err]
  simp

/-! ## Storage lemmas -/

theorem lookupFile_removeFile_ne (st : Storage) (n m : String) (h : m ≠ n) :
    lookupFile (removeFile st n) m = lookupFile st m := by
  induction st with
  | nil => rfl
  | cons p st ih =>
    by_cases hn : p.1 = n
    · have hm : ¬ p.1 = m := fun e => h (e.symm.trans hn)
      simp [removeFile, lookupFile, hn, hm, ih, h, Ne.symm h]
    · by_cases hm : p.1 = m
      · simp [removeFile, lookupFile, hn, hm, h]
      · simp [removeFile, lookupFile, hn, hm, ih]

theorem lookupFile_writeFile_self (st : Storage) (n : String) (bs : List Nat) :
    lookupFile (writeFile st n bs) n = some bs := by
  simp [lookupFile, writeFile]

theorem lookupFile_writeFile_ne (st : Storage) (n m : String) (bs : List Nat)
    (h : m ≠ n) :
    lookupFile (writeFile st n bs) m = lookupFile st m := by
  have hnm : ¬ n = m := fun e => h e.symm
  simp [lookupFile, writeFile, hnm, lookupFile_removeFile_ne st n m h]

/-! ## Theorems -/

/-- `start_recording` always leaves the flag up. -/
theorem start_recording_on (r : Recorder) :
    (start_recording r).1.is_recording = true := by
  cases h : r.is_recording <;> simp [start_recording, h]

/-- `stop_recording` always leaves the flag down. -/
theorem stop_recording_off (r : Recorder) :
    (stop_recording r).is_recording = false := by
  cases h : r.is_recording <;> simp [stop_recording, h]

/-- One subscriber event preserves the lifecycle invariant
"recording iff some client is subscribed". -/
theorem ctrlStep_inv (s : SystemState) (e : SubEvent)
    (h : s.recorder.is_recording = true ↔ s.clients.Nonempty) :
    ((ctrlStep s e).recorder.is_recording = true
      ↔ (ctrlStep s e).clients.Nonempty) := by
  cases e with
  | sub x =>
    simp only [ctrlStep, StartNotify]
    by_cases hc : (insert x s.clients).card = 1
    · simp only [hc, if_pos]
      exact ⟨fun _ => Finset.insert_nonempty x s.clients,
             fun _ => start_recording_on s.recorder⟩
    · have hne : s.clients.Nonempty := by
        rcases s.clients.eq_empty_or_nonempty with he | hne
        · exact absurd (by rw [he]; simp) hc
        · exact hne
      simp only [hc, if_neg, if_false]
      exact ⟨fun _ => Finset.insert_nonempty x s.clients, fun _ => h.2 hne⟩
  | unsub x =>
    simp only [ctrlStep, StopNotify]
    by_cases hc : s.clients.erase x = ∅
    · simp only [hc, if_pos]
      constructor
      · intro hr
        exact absurd hr (by simp [stop_recording_off])
      · intro hn
        exact absurd hn (by simp [hc])
    · have hne : (s.clients.erase x).Nonempty :=
        Finset.nonempty_iff_ne_empty.2 hc
      have hcl : s.clients.Nonempty := by
        obtain ⟨y, hy⟩ := hne
        exact ⟨y, Finset.mem_of_mem_erase hy⟩
      simp only [hc, if_neg, if_false]
      exact ⟨fun _ => hne, fun _ => h.2 hcl⟩

/-- The lifecycle invariant propagates along any event trace. -/
theorem runCtrl_inv_aux (es : List SubEvent) :
    ∀ s : SystemState, (s.recorder.is_recording = true ↔ s.clients.Nonempty) →
      ((es.foldl ctrlStep s).recorder.is_recording = true
        ↔ (es.foldl ctrlStep s).clients.Nonempty) := by
  induction es with
  | nil => intro s h; simpa using h
  | cons e rest ih =>
    intro s h
    simp only [List.foldl_cons]
    exact ih _ (ctrlStep_inv s e h)

/-- C4: after any sequence of subscribe/unsubscribe events from the
initial state, capture is active iff the subscriber set is non-empty
(server.py lines 203-228): the subscribe that makes the set size 1 calls
`start_recording`, the unsubscribe that empties it calls `stop_recording`,
and with several subscribers the departure of one leaves capture
active. -/
theorem capture_iff_subscribers (es : List SubEvent) :
    ((runCtrl es).recorder.is_recording = true
      ↔ (runCtrl es).clients.Nonempty) :=
  runCtrl_inv_aux es sysInit (by simp [sysInit])

/-- Evaluation of one poll on the 1300-byte segment: `ReadValue` pops the
filename, reads only the first 512 bytes, deletes the whole file, and
returns those 512 bytes. -/
theorem readValue_sBigSegment :
    ReadValue sBigSegment = (List.range 512, sAfterFirstPoll) := by
  have h1 : lookupFile [("f", List.range 1300)] "f" = some (List.range 1300) := by
    simp [lookupFile]
  have h2 : removeFile [("f", List.range 1300)] "f" = [] := by
    simp [removeFile]
  have h3 : (List.range 1300).take 512 = List.range 512 := by
    rw [List.take_range]; norm_num
  simp [ReadValue, sBigSegment, sAfterFirstPoll, h1, h2, h3]

/-- The poll after that finds the queue empty and returns nothing. -/
theorem readValue_sAfterFirstPoll :
    ReadValue sAfterFirstPoll = ([], sAfterFirstPoll) := rfl

/-- C1 fails on the code: polling a queued 1300-byte segment yields one
chunk of 512 bytes and then nothing — not 512, 512, 276.  server.py lines
175-201 keep no offset: each `ReadValue` pops a filename, reads only the
first 512 bytes, and deletes the file, so the remaining 788 bytes are
never delivered by any poll. -/
theorem readValue_first_chunk_only :
    (ReadValue sBigSegment).1.length = 512 ∧
    (ReadValue (ReadValue sBigSegment).2).1 = [] ∧
    (ReadValue sBigSegment).1 ++ (ReadValue (ReadValue sBigSegment).2).1
      ≠ List.range 1300 := by
  rw [readValue_sBigSegment]
  simp only [readValue_sAfterFirstPoll]
  refine ⟨by simp, by simp, ?_⟩
  intro h
  have := congrArg List.length h
  simp at this

/-- C2 fails on the code: the segment file is deleted directly after the
first poll, which returned only bytes 0..511 of the 1300-byte segment —
the final byte (value 1299) was not in that result and, the storage being
gone and the queue empty, is never returned by any later poll. -/
theorem delete_before_final_bytes :
    lookupFile (ReadValue sBigSegment).2.storage "f" = none ∧
    (ReadValue sBigSegment).1 = List.range 512 ∧
    (1299 : Nat) ∉ (ReadValue sBigSegment).1 ∧
    (ReadValue (ReadValue sBigSegment).2).1 = [] := by
  rw [readValue_sBigSegment]
  simp only [readValue_sAfterFirstPoll]
  refine ⟨by simp [lookupFile, sAfterFirstPoll], by simp, by simp, by simp⟩

/-- C5: a poll on an empty queue answers with the empty byte string and an
otherwise unchanged state, and a poll whose dequeued filename is missing
from storage (the `FileNotFoundError` path) also answers with the empty
byte string; the embedded `ReadValue` is a total function — the polling
operation has no failure case (server.py lines 175-201). -/
theorem poll_absence_returns_empty (s : SystemState) :
    (s.file_queue = [] → ReadValue s = ([], s)) ∧
    (∀ f rest, s.file_queue = f :: rest → lookupFile s.storage f = none →
      ReadValue s = ([], { s with file_queue := rest })) := by
  constructor
  · intro h
    simp [ReadValue, h]
  · intro f rest hq hf
    simp [ReadValue, hq, hf]

/-- Witness for C5 at an empty queue and at a queued-but-missing file. -/
theorem poll_absence_returns_empty_witness :
    ReadValue sysInit = ([], sysInit) ∧
    ReadValue sMissingFile = ([], { sMissingFile with file_queue := [] }) :=
  ⟨(poll_absence_returns_empty sysInit).1 rfl,
   (poll_absence_returns_empty sMissingFile).2 "g" [] rfl
     (by simp [lookupFile, sMissingFile])⟩

/-- C9 counterexample: a duplicate StartNotify from the sole subscribed
session does invoke `start_recording` again, because after the redundant
`add` the set size is still 1 and server.py line 213 tests
`len(self._clients) == 1`.  So the claim "does not invoke start() again"
is false for an already-present session that is the only member. -/
theorem duplicate_subscribe_invokes_start :
    "a" ∈ ((StartNotify "a" sysInit).1).clients ∧
    (StartNotify "a" (StartNotify "a" sysInit).1).2 = true := by
  constructor
  · simp [StartNotify, sysInit]
  · simp [StartNotify, sysInit]

/-- C9 amended: a duplicate StartNotify for an already-present session
leaves the subscriber set unchanged; when at least one other session is
also present (set size greater than 1) `start_recording` is not invoked;
when the duplicated session is the sole member `start_recording` is
invoked again, but since the recorder is already recording the call is
the warning no-op, so the recorder state is unchanged either way. -/
theorem duplicate_subscribe_amended
    (sender : String) (s : SystemState) (h : sender ∈ s.clients) :
    (StartNotify sender s).1.clients = s.clients ∧
    (1 < s.clients.card → (StartNotify sender s).2 = false) ∧
    (s.recorder.is_recording = true →
      (StartNotify sender s).1.recorder = s.recorder) := by
  have hins : insert sender s.clients = s.clients := Finset.insert_eq_self.2 h
  refine ⟨?_, ?_, ?_⟩
  · simp only [StartNotify, hins]
    split <;> rfl
  · intro hcard
    have hne : s.clients.card ≠ 1 := by omega
    simp [StartNotify, hins, hne]
  · intro hr
    simp only [StartNotify, hins]
    split
    · simp [start_recording, hr]
    · rfl

/-- Witness for the amended C9 at the two-subscriber state. -/
theorem duplicate_subscribe_amended_witness :
    "a" ∈ sTwoClients.clients ∧
    (StartNotify "a" sTwoClients).1.clients = sTwoClients.clients ∧
    (StartNotify "a" sTwoClients).2 = false ∧
    (StartNotify "a" sTwoClients).1.recorder = sTwoClients.recorder :=
  ⟨by decide,
   (duplicate_subscribe_amended "a" sTwoClients (by decide)).1,
   (duplicate_subscribe_amended "a" sTwoClients (by decide)).2.1 (by decide),
   (duplicate_subscribe_amended "a" sTwoClients (by decide)).2.2 (by decide)⟩

/-- C6: at the end of a time-box the segment is written and queued iff at
least one block was captured.  A box that runs to its full `blocksPerBox`
reads always queues (the block list is non-empty); a box cut short by the
stop flag flushes and queues its partial blocks exactly when there is at
least one, and a zero-block box leaves both the storage and the queue
untouched (record.py lines 88-112). -/
theorem timeBox_queue_iff_nonempty
    (name : String) (st : Storage) (q : List String)
    (blocks : List (List Nat)) (rest : List BoxStep) :
    (blocks.length < blocksPerBox →
      timeBox name
          (blocks.map (fun d => BoxStep.read (ReadOutcome.ok d))
            ++ BoxStep.stopped :: rest) st q =
        if blocks.isEmpty then (st, q)
        else (writeFile st name blocks.flatten, q ++ [name])) ∧
    (blocks.length = blocksPerBox →
      timeBox name
          (blocks.map (fun d => BoxStep.read (ReadOutcome.ok d))) st q =
        (writeFile st name blocks.flatten, q ++ [name])) := by
  constructor
  · intro h
    simp only [timeBox, collectFrames_stop_cut blocks rest h]
  · intro h
    have hne : blocks ≠ [] := by
      intro e
      rw [e, blocksPerBox_eq] at h
      exact absurd h.symm (by decide)
    simp only [timeBox, collectFrames_full blocks h]
    cases blocks with
    | nil => exact absurd rfl hne
    | cons b bs => rfl

/-- Witness for C6 at a concrete stop-interrupted box of two blocks. -/
theorem timeBox_queue_iff_nonempty_witness :
    ([[1], [2]] : List (List Nat)).length < blocksPerBox ∧
    timeBox "s"
        (([[1], [2]] : List (List Nat)).map
            (fun d => BoxStep.read (ReadOutcome.ok d))
          ++ BoxStep.stopped :: []) [] [] =
      (if ([[1], [2]] : List (List Nat)).isEmpty then (([] : Storage), ([] : List String))
       else (writeFile [] "s" ([[1], [2]] : List (List Nat)).flatten, [] ++ ["s"])) :=
  ⟨by decide, (timeBox_queue_iff_nonempty "s" [] [] [[1], [2]] []).1 (by decide)⟩

/-- C7: a device read error mid-box aborts only that time-box.  The blocks
collected before the error, if any, are flushed and queued as a truncated
segment, and the capture loop goes on to run the remaining time-boxes
instead of terminating (record.py lines 73-114: the inner except breaks
the for loop, the `if frames:` still saves, and the while loop
continues). -/
theorem read_error_truncates_box
    (name : String) (st : Storage) (q : List String)
    (blocks : List (List Nat)) (tail : List BoxStep)
    (boxes : List (String × List BoxStep))
    (hlen : blocks.length < blocksPerBox) :
    runBoxes ((name, blocks.map (fun d => BoxStep.read (ReadOutcome.ok d))
        ++ BoxStep.read ReadOutcome.err :: tail) :: boxes) st q =
      if blocks.isEmpty then runBoxes boxes st q
      else runBoxes boxes (writeFile st name blocks.flatten) (q ++ [name]) := by
  simp only [runBoxes, timeBox, collectFrames_err_cut blocks tail hlen]
  cases blocks with
  | nil => rfl
  | cons b bs => rfl

/-- Witness for C7: two blocks survive a read error and are queued, and
the following box still runs (Scenario C shape). -/
theorem read_error_truncates_box_witness :
    ([[5], [6]] : List (List Nat)).length < blocksPerBox ∧
    runBoxes (("a", ([[5], [6]] : List (List Nat)).map
          (fun d => BoxStep.read (ReadOutcome.ok d))
        ++ BoxStep.read ReadOutcome.err :: []) :: [("b", [BoxStep.stopped])]) [] [] =
      (if ([[5], [6]] : List (List Nat)).isEmpty
       then runBoxes [("b", [BoxStep.stopped])] [] []
       else runBoxes [("b", [BoxStep.stopped])]
              (writeFile [] "a" ([[5], [6]] : List (List Nat)).flatten)
              ([] ++ ["a"])) :=
  ⟨by decide,
   read_error_truncates_box "a" [] [] [[5], [6]] [] [("b", [BoxStep.stopped])]
     (by decide)⟩

/-- C8: `start_recording` and `stop_recording` are idempotent
(server.py lines 41-55 and 102-108): a second `start` without an
intervening `stop` leaves the state as after one call and fires the
"already in progress" warning rather than failing; `stop_recording` is
idempotent, and on a non-recording state it changes nothing at all. -/
theorem start_stop_idempotent :
    (∀ r : Recorder,
      (start_recording (start_recording r).1).1 = (start_recording r).1) ∧
    (∀ r : Recorder, (start_recording (start_recording r).1).2 = true) ∧
    (∀ r : Recorder, stop_recording (stop_recording r) = stop_recording r) ∧
    stop_recording { is_recording := false } = { is_recording := false } := by
  refine ⟨?_, ?_, ?_, ?_⟩
  · intro r
    cases h : r.is_recording <;> simp [start_recording, h]
  · intro r
    cases h : r.is_recording <;> simp [start_recording, h]
  · intro r
    cases h : r.is_recording <;> simp [stop_recording, h]
  · simp [stop_recording]

/-- One trace step preserves the trace invariant, provided a box event
carries a filename not already enqueued (timestamps in the source). -/
theorem traceStep_inv (t : TraceState) (e : SysEvent) (hInv : TraceInv t)
    (hfresh : ∀ name env, e = SysEvent.box name env → name ∉ t.enq) :
    TraceInv (traceStep t e) := by
  simp only [TraceInv] at hInv
  obtain ⟨h1, h2, h3, h4⟩ := hInv
  cases e with
  | box name env =>
    have hf : name ∉ t.enq := hfresh name env rfl
    by_cases hF : (collectFrames blocksPerBox env).isEmpty = true
    · simp only [TraceInv, traceStep, timeBox, hF, if_true, if_pos]
      exact ⟨h1, h2, h3, h4⟩
    · have hFb : (collectFrames blocksPerBox env).isEmpty = false :=
        Bool.eq_false_iff.2 hF
      simp only [TraceInv, traceStep, timeBox, hFb, Bool.false_eq_true,
        if_false, if_neg]
      refine ⟨?_, ?_, ?_, ?_⟩
      · rw [← List.append_assoc, h1]
      · simp only [List.nodup_append, List.nodup_cons, List.nodup_nil]
        refine ⟨h2, by simp, ?_⟩
        intro x hx
        simp only [List.mem_singleton]
        intro e
        exact hf (e ▸ hx)
      · intro n hn
        rcases List.mem_append.1 hn with hq | hs
        · have hne : n ≠ name := by
            intro e
            exact hf (e ▸ (h1 ▸ List.mem_append_right t.del hq))
          rw [lookupFile_writeFile_ne _ _ _ _ hne,
              lookupFile_writeFile_ne _ _ _ _ hne]
          exact h3 n hq
        · have hn' : n = name := by simpa using hs
          subst hn'
          rw [lookupFile_writeFile_self, lookupFile_writeFile_self]
      · intro n hn
        rcases List.mem_append.1 hn with he | hs
        · have hne : n ≠ name := fun e => hf (e ▸ he)
          rw [lookupFile_writeFile_ne _ _ _ _ hne]
          exact h4 n he
        · have hn' : n = name := by simpa using hs
          subst hn'
          rw [lookupFile_writeFile_self]
          simp
  | poll =>
    match hq : t.sys.file_queue with
    | [] =>
      simp only [TraceInv, traceStep, ReadValue, hq]
      exact ⟨by simpa [hq] using h1, h2, by simp, h4⟩
    | f :: rest =>
      have hmem : f ∈ t.sys.file_queue := by rw [hq]; exact List.mem_cons_self f rest
      have hcl : lookupFile t.sys.storage f = lookupFile t.closed f := h3 f hmem
      have henq : f ∈ t.enq := h1 ▸ List.mem_append_right t.del hmem
      have hsome : lookupFile t.closed f ≠ none := h4 f henq
      obtain ⟨bs, hbs⟩ : ∃ bs, lookupFile t.sys.storage f = some bs := by
        rw [hcl]
        cases hc : lookupFile t.closed f with
        | none => exact absurd hc hsome
        | some bs => exact ⟨bs, rfl⟩
      have hnd : (f :: rest).Nodup := by
        have : (t.del ++ (f :: rest)).Nodup := by rw [hq] at h1; rw [h1]; exact h2
        exact this.of_append_right
      have hfr : f ∉ rest := (List.nodup_cons.1 hnd).1
      simp only [TraceInv, traceStep, ReadValue, hq, hbs]
      refine ⟨?_, h2, ?_, h4⟩
      · rw [List.append_assoc]
        simpa [hq] using h1
      · intro n hn
        have hne : n ≠ f := fun e => hfr (e ▸ hn)
        rw [lookupFile_removeFile_ne _ _ _ hne]
        exact h3 n (by rw [hq]; exact List.mem_cons_of_mem f hn)

/-- The trace invariant holds after any trace whose box filenames are
distinct and fresh. -/
theorem runTrace_inv (es : List SysEvent) :
    ∀ t : TraceState, TraceInv t → (boxNames es).Nodup →
      (∀ n ∈ boxNames es, n ∉ t.enq) → TraceInv (runTrace es t) := by
  induction es with
  | nil => intro t h _ _; exact h
  | cons e es ih =>
    intro t hInv hnd hdisj
    cases e with
    | box name env =>
      have hbn : boxNames (SysEvent.box name env :: es) = name :: boxNames es :=
        rfl
      rw [hbn] at hnd hdisj
      have hname : name ∉ t.enq := hdisj name (List.mem_cons_self _ _)
      have hstep : TraceInv (traceStep t (SysEvent.box name env)) :=
        traceStep_inv t _ hInv (fun n e' he => by
          cases he
          exact hname)
      refine ih _ hstep (List.nodup_cons.1 hnd).2 ?_
      intro n hn
      have hne : n ≠ name := fun e => (List.nodup_cons.1 hnd).1 (e ▸ hn)
      have hnotin : n ∉ t.enq := hdisj n (List.mem_cons_of_mem _ hn)
      simp only [traceStep]
      by_cases hF : (collectFrames blocksPerBox env).isEmpty = true
      · simpa [hF] using hnotin
      · have hFb : (collectFrames blocksPerBox env).isEmpty = false :=
          Bool.eq_false_iff.2 hF
        simp [hFb, hnotin, hne]
    | poll =>
      have hstep : TraceInv (traceStep t SysEvent.poll) :=
        traceStep_inv t _ hInv (fun n e' he => by cases he)
      refine ih _ hstep hnd ?_
      intro n hn
      simpa [traceStep] using hdisj n hn

/-- C3: for every interleaving of completed time-boxes (with distinct
filenames) and polls, starting from the initial state: the delivered
filenames followed by the still-queued filenames are exactly the enqueued
filenames in order — so segments are delivered in strictly increasing
completion (FIFO) order, each poll removing the oldest; no filename is
delivered twice; every queued segment's storage holds exactly the bytes
it was closed with (a filename is only enqueued after its file is fully
written); and every delivered segment had been closed. -/
theorem fifo_closed_delivery (es : List SysEvent)
    (hnd : (boxNames es).Nodup) :
    (runTrace es traceInit).del ++ (runTrace es traceInit).sys.file_queue =
      (runTrace es traceInit).enq ∧
    (runTrace es traceInit).del.Nodup ∧
    (∀ n ∈ (runTrace es traceInit).sys.file_queue,
      lookupFile (runTrace es traceInit).sys.storage n =
        lookupFile (runTrace es traceInit).closed n) ∧
    (∀ n ∈ (runTrace es traceInit).del,
      lookupFile (runTrace es traceInit).closed n ≠ none) := by
  have hinit : TraceInv traceInit := by
    refine ⟨rfl, List.nodup_nil, ?_, ?_⟩ <;> intro n hn <;>
      simp [traceInit, sysInit] at hn
  have h := runTrace_inv es traceInit hinit hnd (by
    intro n hn
    simp [traceInit])
  simp only [TraceInv] at h
  obtain ⟨h1, h2, h3, h4⟩ := h
  refine ⟨h1, ?_, h3, ?_⟩
  · have hsub : List.Sublist (runTrace es traceInit).del
        (runTrace es traceInit).enq := by
      rw [← h1]
      exact List.sublist_append_left _ _
    exact List.Nodup.sublist hsub h2
  · intro n hn
    exact h4 n (h1 ▸ List.mem_append_left _ hn)

/-- Witness for C3 on the concrete four-event trace. -/
theorem fifo_closed_delivery_witness :
    (boxNames esWitness).Nodup ∧
    ((runTrace esWitness traceInit).del ++
        (runTrace esWitness traceInit).sys.file_queue =
      (runTrace esWitness traceInit).enq ∧
    (runTrace esWitness traceInit).del.Nodup ∧
    (∀ n ∈ (runTrace esWitness traceInit).sys.file_queue,
      lookupFile (runTrace esWitness traceInit).sys.storage n =
        lookupFile (runTrace esWitness traceInit).closed n) ∧
    (∀ n ∈ (runTrace esWitness traceInit).del,
      lookupFile (runTrace esWitness traceInit).closed n ≠ none)) :=
  ⟨by decide, fifo_closed_delivery esWitness (by decide)⟩

/-- C10: `WriteValue` is a pure no-op on every component of the state —
the queue, the storage, the subscriber set, the recorder flag and the
cached characteristic value are all unchanged — whenever the input bytes
are valid strict UTF-8, and on any input that is not valid UTF-8 the
decode raises instead of completing (server.py lines 230-233). -/
theorem writeValue_frame (v : List Nat) (s : SystemState) :
    (utf8Valid v = true →
      ∃ s2, WriteValue v s = some s2 ∧
        s2.file_queue = s.file_queue ∧ s2.storage = s.storage ∧
        s2.clients = s.clients ∧ s2.recorder = s.recorder ∧
        s2.value = s.value) ∧
    (utf8Valid v = false → WriteValue v s = none) := by
  constructor
  · intro h
    exact ⟨s, by simp [WriteValue, h], rfl, rfl, rfl, rfl, rfl⟩
  · intro h
    simp [WriteValue, h]

/-- Witness for C10: the bytes of the UTF-8 string "H中" complete with
the state intact, while the lone continuation byte 0x80 is rejected. -/
theorem writeValue_frame_witness :
    (∃ s2, WriteValue [72, 228, 184, 173] sysInit = some s2 ∧
      s2.file_queue = sysInit.file_queue ∧ s2.storage = sysInit.storage ∧
      s2.clients = sysInit.clients ∧ s2.recorder = sysInit.recorder ∧
      s2.value = sysInit.value) ∧
    WriteValue [128] sysInit = none :=
  ⟨(writeValue_frame [72, 228, 184, 173] sysInit).1 (by decide),
   (writeValue_frame [128] sysInit).2 (by decide)⟩

end BLE
